import Mathlib

/-!
Verification of the incremental-scan cache core of the `indu` disk-usage
analyzer.  The definitions below are a shallow embedding of the C sources
`src/dir_cache.c`, `src/dir_cache_lock.c` and `src/dir_scan.c`: pure data
manipulation is translated into Lean functions, the in-memory hash index is
modelled as a list of entries searched by path, and the I/O environment
(flock results, fsync failures, file contents) is passed in explicitly.
-/

set_option maxHeartbeats 1000000

/-! ## Data model (from `dir_cache.h` and `global.h`)

The C flag words are bitmasks over distinct bits; they are modelled as a
structure of booleans, one per bit. -/

/-- The per-item flag bits (FF_DIR, FF_FILE, FF_ERR, FF_EXL, FF_OTHFS,
FF_KERNFS, FF_FRMLNK, FF_HLNKC, FF_EXT, FF_CACHED). -/
structure Flags where
  dir : Bool
  file : Bool
  err : Bool
  exl : Bool
  othfs : Bool
  kernfs : Bool
  frmlnk : Bool
  hlnkc : Bool
  ext : Bool
  cached : Bool
  deriving DecidableEq, Repr

/-- Flag word with no bit set. -/
def noFlags : Flags :=
  { dir := false, file := false, err := false, exl := false, othfs := false,
    kernfs := false, frmlnk := false, hlnkc := false, ext := false, cached := false }

/-- `struct dir_ext`: the optional extended metadata, with one FFE_* presence
bit per field. -/
structure ExtInfo where
  hasMtime : Bool
  hasUid : Bool
  hasGid : Bool
  hasMode : Bool
  mtime : Nat
  uid : Nat
  gid : Nat
  mode : Nat
  deriving DecidableEq, Repr

/-- The all-zero `struct dir_ext` (as produced by `memset`). -/
def emptyExt : ExtInfo :=
  { hasMtime := false, hasUid := false, hasGid := false, hasMode := false,
    mtime := 0, uid := 0, gid := 0, mode := 0 }

/-- The fields of `struct dir` that the cache core reads and writes. -/
structure Dir where
  flags : Flags
  size : Int
  asize : Int
  ino : Nat
  dev : Nat
  items : Nat
  deriving DecidableEq, Repr

/-- `struct cache_child`: the shallow record of one filesystem entry as a
child of some directory.  The records held by `cache_entry.children` always
have a null nested-children pointer in the C code (both `dir_cache_store` and
`build_cache_entries` explicitly zero it), so the nested list is kept only in
the parser's tree type `PNode` below. -/
structure CacheChild where
  name : String
  flags : Flags
  size : Int
  asize : Int
  ino : Nat
  dev : Nat
  mtime : Nat
  uid : Nat
  gid : Nat
  nlink : Nat
  mode : Nat
  deriving DecidableEq, Repr

/-- `struct cache_entry`: the per-directory record living in the index. -/
structure CacheEntry where
  path : String
  mtime : Nat
  dev : Nat
  ino : Nat
  size : Int
  asize : Int
  items : Nat
  used : Bool
  children : List CacheChild
  deriving DecidableEq, Repr

/-- The in-memory index (`cache_table`): a map from absolute path to entry,
modelled as a list searched by path.  The C hash table keys every live entry
by its own `path` string, so path search is the faithful lookup. -/
abbrev Index : Type := List CacheEntry

/-- Hash-table probe `cache_ht_get`: find the entry stored under `p`. -/
def indexLookup (idx : Index) (p : String) : Option CacheEntry :=
  idx.find? (fun e => e.path == p)

/-- Flip the `used` bit of the (single) entry stored under `p` to true,
mirroring the in-place `entry->used = 1` mutation. -/
def indexMarkUsed : Index → String → Index
  | [], _ => []
  | e :: r, p => if e.path == p then { e with used := true } :: r else e :: indexMarkUsed r p

/-- Replace the (single) entry stored under `p` by `ne`, mirroring
`kh_val(cache_table, k) = entry` on an existing slot. -/
def indexReplace : Index → String → CacheEntry → Index
  | [], _, _ => []
  | e :: r, p, ne => if e.path == p then ne :: r else e :: indexReplace r p ne

/-! ## `dir_cache_lookup` (dir_cache.c:969) -/

/-- `dir_cache_lookup(path, mtime, dev, ino)`: hash probe by path, then
validation of the mtime/dev/ino triple; on a hit the entry's `used` flag is
set.  Returns the looked-up entry (if any) together with the index after the
`used`-bit mutation. -/
def dir_cache_lookup (idx : Index) (path : String) (mtime dev ino : Nat) :
    Option CacheEntry × Index :=
  match indexLookup idx path with
  | none => (none, idx)
  | some e =>
    if e.mtime ≠ mtime ∨ e.dev ≠ dev ∨ e.ino ≠ ino then (none, idx)
    else (some { e with used := true }, indexMarkUsed idx path)

/-! ## `dir_cache_store` (dir_cache.c:996) -/

/-- The fresh entry built by `dir_cache_store` from the directory summary,
the optional extended info and the collected shallow children. -/
def mkStoreEntry (path : String) (d : Dir) (ext : Option ExtInfo)
    (children : List CacheChild) : CacheEntry :=
  { path := path,
    mtime := match ext with
             | some x => if x.hasMtime then x.mtime else 0
             | none => 0,
    dev := d.dev, ino := d.ino, size := d.size, asize := d.asize,
    items := d.items, used := true, children := children }

/-- `dir_cache_store(path, d, ext, children)`: build the new entry (with
`used = 1` and a deep copy of the shallow children) and insert it, replacing
any entry already stored under `path`.  The displaced entry is not freed; its
`used` flag is cleared (`old->used = 0`) and it stays reachable only through
the cleanup list.  Returns the new index and the displaced entry, if any. -/
def dir_cache_store (idx : Index) (path : String) (d : Dir) (ext : Option ExtInfo)
    (children : List CacheChild) : Index × Option CacheEntry :=
  let entry := mkStoreEntry path d ext children
  match indexLookup idx path with
  | some old => (indexReplace idx path entry, some { old with used := false })
  | none => (idx ++ [entry], none)

/-! ## The entry-selection loop of `dir_cache_save` (dir_cache.c:1223) -/

/-- The entries `dir_cache_save` serializes: its loop walks the occupied
hash slots and skips every entry whose `used` flag is clear
(`if (!entry || !entry->used) continue;`). -/
def savedEntries : Index → List CacheEntry
  | [] => []
  | e :: r => if e.used then e :: savedEntries r else savedEntries r

/-! ## Cache lock (`dir_cache_lock.c`)

The kill(2) probe, the clock and the flock(2) outcomes are environment
parameters; everything else is translated from the source. -/

/-- `process_alive(pid)` (dir_cache_lock.c:63): a pid that is `<= 0` is never
alive; otherwise the signal-0 probe decides.  `probe pid` stands for
`kill(pid, 0) == 0 || errno == EPERM`. -/
def process_alive (probe : Int → Bool) (pid : Int) : Bool :=
  if pid ≤ 0 then false else probe pid

/-- Skip the characters `sscanf`'s `%ld` conversion skips (isspace). -/
def skipSp : List Char → List Char
  | [] => []
  | c :: r =>
    if c = ' ' ∨ c = '\t' ∨ c = '\n' ∨ c = '\r' ∨ c = '\x0b' ∨ c = '\x0c'
    then skipSp r else c :: r

/-- Consume a maximal run of decimal digits, accumulating their value. -/
def scanDigits : List Char → Int → Int × List Char
  | [], acc => (acc, [])
  | c :: r, acc =>
    if c.isDigit then scanDigits r (acc * 10 + (c.toNat - 48 : Int)) else (acc, c :: r)

/-- One `%ld` conversion of `sscanf`: skip whitespace, accept an optional
sign, then require at least one digit. -/
def scanLong (s : List Char) : Option (Int × List Char) :=
  let s1 := skipSp s
  let (neg, s2) :=
    match s1 with
    | c :: r => if c = '-' then (true, r) else if c = '+' then (false, r) else (false, s1)
    | [] => (false, s1)
  match s2 with
  | c :: _ =>
    if c.isDigit then
      let (v, r) := scanDigits s2 0
      some (if neg then -v else v, r)
    else none
  | [] => none

/-- `read_lock_info` (dir_cache_lock.c:72): `readRes` is the outcome of the
lseek/read of the lock file (`none` = I/O error).  At most 63 bytes are read;
a read of zero bytes fails, and the body must satisfy
`sscanf(buf, "%ld %ld") == 2`. -/
def read_lock_info (readRes : Option String) : Option (Int × Int) :=
  match readRes with
  | none => none
  | some body =>
    let bs := body.toList.take 63
    if bs.isEmpty then none
    else
      match scanLong bs with
      | none => none
      | some (pid, rest) =>
        match scanLong rest with
        | none => none
        | some (ts, _) => some (pid, ts)

/-- `is_lock_stale` (dir_cache_lock.c:132): unreadable or unparsable info is
stale; a dead holder is stale; a positive timestamp older than
`STALE_LOCK_THRESHOLD` (300 s) is stale. -/
def is_lock_stale (probe : Int → Bool) (now : Int) (readRes : Option String) : Bool :=
  match read_lock_info readRes with
  | none => true
  | some (pid, ts) =>
    if process_alive probe pid = false then true
    else if ts > 0 ∧ now - ts > 300 then true
    else false

/-- Lock modes (`cache_lock_mode`). -/
inductive LockMode where
  | shared
  | exclusive
  deriving DecidableEq, Repr

/-- The process-local lock state (`lock_held`, `current_mode`). -/
structure LockState where
  held : Bool
  mode : LockMode
  deriving DecidableEq, Repr

/-- Outcome of one `flock` call: success, `EWOULDBLOCK`/`EAGAIN`, or another
error. -/
inductive FlockRes where
  | ok
  | wouldblock
  | fail
  deriving DecidableEq, Repr

/-- The environment of one `cache_lock_acquire` call: whether the lock file
path was initialized and the file opens, the per-iteration outcome of the
non-blocking `flock` in the requested mode, the per-iteration outcome of
`write_lock_info`, the outcomes of the two take-over `flock` calls, the
contents read from the lock file (for `is_lock_stale`), the kill probe, and
the elapsed wall-clock seconds observed at each iteration. -/
structure AcqEnv where
  pathSet : Bool
  openOk : Bool
  tryMain : Nat → FlockRes
  writeInfoOk : Nat → Bool
  takeoverEx : FlockRes
  takeoverSh : FlockRes
  takeoverWriteOk : Bool
  readRes : Option String
  probe : Int → Bool
  now : Int
  elapsed : Nat → Int

/-- The retry loop of `cache_lock_acquire` (dir_cache_lock.c:232).  `fuel`
bounds the number of iterations of the model (the C loop may spin on a
persistently contended lock); `iter` counts iterations, `first` is
`first_attempt`.  Returns the granted mode on success, `none` on failure. -/
def acquireLoop (env : AcqEnv) (mode : LockMode) (timeoutSec : Int) :
    Nat → Nat → Bool → Option LockMode
  | 0, _, _ => none
  | Nat.succ f, iter, first =>
    match env.tryMain iter with
    | FlockRes.ok =>
      if mode = LockMode.exclusive ∧ env.writeInfoOk iter = false then none
      else some mode
    | FlockRes.fail => none
    | FlockRes.wouldblock =>
      let cont : Option LockMode :=
        if timeoutSec = 0 then none
        else if timeoutSec > 0 ∧ env.elapsed iter ≥ timeoutSec then none
        else acquireLoop env mode timeoutSec f (iter + 1) false
      if first ∧ is_lock_stale env.probe env.now env.readRes = true then
        match env.takeoverEx with
        | FlockRes.ok =>
          if mode = LockMode.exclusive then
            if env.takeoverWriteOk then some mode else none
          else
            match env.takeoverSh with
            | FlockRes.ok => some mode
            | _ => none
        | _ => cont
      else cont

/-- `cache_lock_release` (dir_cache_lock.c:323): unlock, close, clear the
held flag; a no-op when nothing is held. -/
def cache_lock_release (st : LockState) : LockState :=
  { st with held := false }

/-- The open-and-loop tail of `cache_lock_acquire`, entered once any held
lock has been dealt with. -/
def acquireFresh (env : AcqEnv) (st : LockState) (mode : LockMode)
    (timeoutSec : Int) (fuel : Nat) : Int × LockState :=
  if env.openOk = false then (-1, st)
  else
    match acquireLoop env mode timeoutSec fuel 0 true with
    | some m => (0, { held := true, mode := m })
    | none => (-1, { st with held := false })

/-- `cache_lock_acquire(mode, timeout_sec)` (dir_cache_lock.c:194): an
already-held exclusive lock satisfies any request; a held shared lock
satisfies a shared request; upgrading shared to exclusive releases first and
then acquires from scratch. -/
def cache_lock_acquire (env : AcqEnv) (st : LockState) (mode : LockMode)
    (timeoutSec : Int) (fuel : Nat) : Int × LockState :=
  if env.pathSet = false then (-1, st)
  else if st.held then
    if st.mode = LockMode.exclusive then (0, st)
    else if mode = LockMode.shared then (0, st)
    else acquireFresh env (cache_lock_release st) mode timeoutSec fuel
  else acquireFresh env st mode timeoutSec fuel

/-! ## The crash-safety protocol of `dir_cache_save` (dir_cache.c:1169)

The file-system effect of one save is modelled on an abstract state holding
the target file's contents (identified by a number) and whether the sibling
temp file exists.  The outcome of each fallible step is an environment
parameter. -/

/-- Step outcomes for one `dir_cache_save` run: lock acquisition, `mkstemp`,
`fdopen`, `fflush`, `fsync` of the temp fd, `fclose`, `rename`, and the
`fsync` of the containing directory. -/
structure SaveEnv where
  lockOk : Bool
  mkstempOk : Bool
  fdopenOk : Bool
  flushOk : Bool
  fsyncOk : Bool
  fcloseOk : Bool
  renameOk : Bool
  dirFsyncOk : Bool
  deriving DecidableEq, Repr

/-- The observable file-system state around the cache file. -/
structure SaveFs where
  target : Option Nat
  tmp : Bool
  deriving DecidableEq, Repr

/-- `dir_cache_save` (dir_cache.c:1169) as a state transformer: `newContent`
identifies the serialized document.  Stream errors surface at `fflush`; every
failure before a successful `rename` unlinks the temp file; a successful
`rename` replaces the target, after which the result of `fsync_dir` on the
parent directory is ignored (dir_cache.c:1296). -/
def dir_cache_save_fs (env : SaveEnv) (newContent : Nat) (fs : SaveFs) : SaveFs :=
  if env.lockOk = false then fs
  else if env.mkstempOk = false then fs
  else
    -- mkstemp created the temp file
    let fs1 : SaveFs := { fs with tmp := true }
    if env.fdopenOk = false then { fs1 with tmp := false }
    else if env.flushOk = false then { fs1 with tmp := false }
    else if env.fsyncOk = false then { fs1 with tmp := false }
    else if env.fcloseOk = false then { fs1 with tmp := false }
    else if env.renameOk then { target := some newContent, tmp := false }
    else { fs1 with tmp := false }

/-! ## JSON string escaping (`output_string`, dir_cache.c:122) and parsing
(`parse_string`, dir_cache.c:361)

Byte strings are modelled as `List Nat`.  `output_string` walks the
NUL-terminated name, so the modelled name never contains byte 0. -/

/-- Lowercase hex digit of a value below 16 (as produced by `%02x`). -/
def hexDigit (n : Nat) : Nat :=
  if n < 10 then 48 + n else 87 + n

/-- `output_string` (dir_cache.c:122): escape one byte. -/
def escapeByte (b : Nat) : List Nat :=
  if b = 10 then [92, 110]        -- \n
  else if b = 13 then [92, 114]   -- \r
  else if b = 8 then [92, 98]     -- \b
  else if b = 9 then [92, 116]    -- \t
  else if b = 12 then [92, 102]   -- \f
  else if b = 92 then [92, 92]    -- backslash
  else if b = 34 then [92, 34]    -- double quote
  else if b ≤ 31 ∨ b = 127 then
    [92, 117, 48, 48, hexDigit (b / 16), hexDigit (b % 16)]  -- \u00xx
  else [b]

/-- `output_string` over a whole name. -/
def output_string (s : List Nat) : List Nat :=
  s.flatMap escapeByte

/-- The byte produced for a simple escape in `parse_string`
(dir_cache.c:392); `\u` is handled separately and any other escape is an
error. -/
def escByte (e : Nat) : Option Nat :=
  if e = 34 then some 34
  else if e = 92 then some 92
  else if e = 47 then some 47
  else if e = 98 then some 8
  else if e = 102 then some 12
  else if e = 110 then some 10
  else if e = 114 then some 13
  else if e = 116 then some 9
  else none

/-- Append one decoded byte, subject to the `len < destlen - 1` capacity
check of `parse_string`; a NULL destination is modelled by `destlen = 0`. -/
def pushCapped (destlen : Nat) (acc : List Nat) (b : Nat) : List Nat :=
  if acc.length < destlen - 1 then acc ++ [b] else acc

/-- The scan loop of `parse_string` (dir_cache.c:367): stops at the closing
quote, decodes simple escapes, and *skips* `\uNNNN` escapes by dropping up to
four bytes without emitting anything (dir_cache.c:401).  `fuel` bounds the
number of iterations; each iteration consumes at least one input byte, so
`fuel = length of the input` always suffices. -/
def parseStringLoop (destlen : Nat) : Nat → List Nat → List Nat → Option (List Nat × List Nat)
  | 0, _, _ => none
  | Nat.succ f, acc, s =>
    match s with
    | [] => none
    | 34 :: r => some (acc, r)
    | 92 :: r =>
      match r with
      | [] => none
      | e :: r2 =>
        if e = 117 then parseStringLoop destlen f acc (r2.drop 4)
        else
          match escByte e with
          | some b => parseStringLoop destlen f (pushCapped destlen acc b) r2
          | none => none
    | b :: r => parseStringLoop destlen f (pushCapped destlen acc b) r

/-- Skip JSON whitespace, as `parse_skip_ws` (dir_cache.c:316) does. -/
def skipWs : List Nat → List Nat
  | [] => []
  | b :: r => if b = 32 ∨ b = 9 ∨ b = 13 ∨ b = 10 then skipWs r else b :: r

/-- `parse_expect` (dir_cache.c:342): skip whitespace and consume byte `c`. -/
def parse_expect (c : Nat) (s : List Nat) : Option (List Nat) :=
  match skipWs s with
  | b :: r => if b = c then some r else none
  | [] => none

/-- `parse_string` (dir_cache.c:361): expect the opening quote, then run the
scan loop.  Returns the decoded bytes and the unconsumed input. -/
def parse_string (destlen : Nat) (fuel : Nat) (s : List Nat) :
    Option (List Nat × List Nat) :=
  match parse_expect 34 s with
  | none => none
  | some r => parseStringLoop destlen fuel [] r

/-! ## JSON number parsing (dir_cache.c:423 and dir_cache.c:450) -/

/-- Digit-run consumption of `parse_int64`.  The C accumulator is a signed
64-bit integer whose overflow is undefined behaviour; the model accumulates
exactly. -/
def parseDigitsInt : List Nat → Int → Int × List Nat
  | [], acc => (acc, [])
  | b :: r, acc =>
    if 48 ≤ b ∧ b ≤ 57 then parseDigitsInt r (acc * 10 + ((b - 48 : Nat) : Int))
    else (acc, b :: r)

/-- `parse_int64` (dir_cache.c:423): optional minus sign, then at least one
digit.  No fractional part is accepted here. -/
def parse_int64 (s : List Nat) : Option (Int × List Nat) :=
  let s1 := skipWs s
  let p :=
    match s1 with
    | 45 :: r => (true, r)
    | _ => (false, s1)
  match p.2 with
  | b :: _ =>
    if 48 ≤ b ∧ b ≤ 57 then
      let v := parseDigitsInt p.2 0
      some (if p.1 then -v.1 else v.1, v.2)
    else none
  | [] => none

/-- Drop a run of decimal digits. -/
def dropDigits : List Nat → List Nat
  | [] => []
  | b :: r => if 48 ≤ b ∧ b ≤ 57 then dropDigits r else b :: r

/-- Digit-run consumption of `parse_uint64`; the `uint64_t` accumulator wraps
modulo 2^64. -/
def parseDigitsU : List Nat → Nat → Nat × List Nat
  | [], acc => (acc, [])
  | b :: r, acc =>
    if 48 ≤ b ∧ b ≤ 57 then parseDigitsU r ((acc * 10 + (b - 48)) % 18446744073709551616)
    else (acc, b :: r)

/-- `parse_uint64` (dir_cache.c:450): at least one digit, then an optional
fractional part that is consumed and discarded. -/
def parse_uint64 (s : List Nat) : Option (Nat × List Nat) :=
  let s1 := skipWs s
  match s1 with
  | b :: _ =>
    if 48 ≤ b ∧ b ≤ 57 then
      let v := parseDigitsU s1 0
      let r2 :=
        match v.2 with
        | 46 :: r3 => dropDigits r3
        | _ => v.2
      some (v.1, r2)
    else none
  | [] => none

/-! ## Skipping JSON values (dir_cache.c:475) -/

/-- Is this byte part of a JSON number, per the scan in `parse_skip_value`? -/
def isNumByte (b : Nat) : Bool :=
  b = 45 || b = 43 || b = 46 || b = 101 || b = 69 || (48 ≤ b && b ≤ 57)

/-- Drop a run of number bytes. -/
def dropNum : List Nat → List Nat
  | [] => []
  | b :: r => if isNumByte b then dropNum r else b :: r

/-- Which of the three mutually recursive skip routines is running:
`parse_skip_value`, the member loop of `parse_skip_object`, or the element
loop of `parse_skip_array`. -/
inductive SkipTask where
  | value
  | objLoop
  | arrLoop
  deriving DecidableEq, Repr

/-- The mutually recursive skippers `parse_skip_value` /
`parse_skip_object` / `parse_skip_array` (dir_cache.c:475), merged into one
fuel-indexed function.  Booleans and nulls are skipped by advancing four or
five bytes without validation, exactly as the C does. -/
def parseSkip : Nat → SkipTask → List Nat → Option (List Nat)
  | 0, _, _ => none
  | Nat.succ f, SkipTask.value, s =>
    let s1 := skipWs s
    match s1 with
    | 123 :: r =>
      match skipWs r with
      | 125 :: r2 => some r2
      | r2 => parseSkip f SkipTask.objLoop r2
    | 91 :: r =>
      match skipWs r with
      | 93 :: r2 => some r2
      | r2 => parseSkip f SkipTask.arrLoop r2
    | 34 :: _ => (parse_string 0 f s1).map (fun x => x.2)
    | 116 :: _ => some (s1.drop 4)
    | 102 :: _ => some (s1.drop 5)
    | 110 :: _ => some (s1.drop 4)
    | b :: _ => if b = 45 ∨ (48 ≤ b ∧ b ≤ 57) then some (dropNum s1) else none
    | [] => none
  | Nat.succ f, SkipTask.objLoop, s =>
    match parse_string 0 f s with
    | none => none
    | some x =>
      match parse_expect 58 x.2 with
      | none => none
      | some r2 =>
        match parseSkip f SkipTask.value r2 with
        | none => none
        | some r3 =>
          match skipWs r3 with
          | 125 :: r4 => some r4
          | 44 :: r4 => parseSkip f SkipTask.objLoop r4
          | _ => none
  | Nat.succ f, SkipTask.arrLoop, s =>
    match parseSkip f SkipTask.value s with
    | none => none
    | some r =>
      match skipWs r with
      | 93 :: r2 => some r2
      | 44 :: r2 => parseSkip f SkipTask.arrLoop r2
      | _ => none

/-- `parse_skip_object` (dir_cache.c:478): expect the opening brace, allow an
empty object, otherwise run the member loop. -/
def parse_skip_object (fuel : Nat) (s : List Nat) : Option (List Nat) :=
  match parse_expect 123 s with
  | none => none
  | some r =>
    match skipWs r with
    | 125 :: r2 => some r2
    | r2 => parseSkip fuel SkipTask.objLoop r2

/-! ## Parsing items (dir_cache.c:569 and dir_cache.c:703) -/

/-- Bytes of an ASCII key or keyword. -/
def strBytes (s : String) : List Nat :=
  s.toList.map Char.toNat

/-- A parsed name: bytes decoded one byte per character. -/
def bytesToName (bs : List Nat) : String :=
  String.mk (bs.map Char.ofNat)

/-- The all-zero `struct cache_child` produced by `memset` in `parse_item`. -/
def emptyChild : CacheChild :=
  { name := "", flags := noFlags, size := 0, asize := 0, ino := 0, dev := 0,
    mtime := 0, uid := 0, gid := 0, nlink := 0, mode := 0 }

/-- Dispatch on one key of the item-info object (the `strcmp` chain of
`parse_item_info`, dir_cache.c:594).  The narrowing casts of the C are kept:
`uid`/`gid`/`nlink` go through `unsigned int`, `mode` through
`unsigned short`.  Returns the updated child, whether a name has been seen,
and the unconsumed input. -/
def parseItemField (f : Nat) (key : List Nat) (s : List Nat) (c : CacheChild)
    (nameSet : Bool) : Option (CacheChild × Bool × List Nat) :=
  if key = strBytes "name" then
    match parse_string 32768 f s with
    | none => none
    | some x => some ({ c with name := bytesToName x.1 }, true, x.2)
  else if key = strBytes "asize" then
    (parse_int64 s).map (fun x => ({ c with asize := x.1 }, nameSet, x.2))
  else if key = strBytes "dsize" then
    (parse_int64 s).map (fun x => ({ c with size := x.1 }, nameSet, x.2))
  else if key = strBytes "dev" then
    (parse_uint64 s).map (fun x => ({ c with dev := x.1 }, nameSet, x.2))
  else if key = strBytes "ino" then
    (parse_uint64 s).map (fun x => ({ c with ino := x.1 }, nameSet, x.2))
  else if key = strBytes "mtime" then
    (parse_uint64 s).map (fun x => ({ c with mtime := x.1 }, nameSet, x.2))
  else if key = strBytes "uid" then
    (parse_uint64 s).map (fun x => ({ c with uid := x.1 % 4294967296 }, nameSet, x.2))
  else if key = strBytes "gid" then
    (parse_uint64 s).map (fun x => ({ c with gid := x.1 % 4294967296 }, nameSet, x.2))
  else if key = strBytes "mode" then
    (parse_uint64 s).map (fun x => ({ c with mode := x.1 % 65536 }, nameSet, x.2))
  else if key = strBytes "nlink" then
    (parse_uint64 s).map (fun x =>
      ({ c with nlink := x.1 % 4294967296,
                flags := if x.1 > 1 then { c.flags with hlnkc := true } else c.flags },
       nameSet, x.2))
  else if key = strBytes "hlnkc" then
    let s1 := skipWs s
    if s1.head? = some 116 then
      some ({ c with flags := { c.flags with hlnkc := true } }, nameSet, s1.drop 4)
    else some (c, nameSet, s1.drop 5)
  else if key = strBytes "read_error" then
    let s1 := skipWs s
    if s1.head? = some 116 then
      some ({ c with flags := { c.flags with err := true } }, nameSet, s1.drop 4)
    else some (c, nameSet, s1.drop 5)
  else if key = strBytes "excluded" then
    match parse_string 16 f s with
    | none => none
    | some x =>
      let fl :=
        if x.1 = strBytes "otherfs" ∨ x.1 = strBytes "othfs" then
          { c.flags with othfs := true }
        else if x.1 = strBytes "kernfs" then { c.flags with kernfs := true }
        else if x.1 = strBytes "frmlnk" then { c.flags with frmlnk := true }
        else { c.flags with exl := true }
      some ({ c with flags := fl }, nameSet, x.2)
  else if key = strBytes "notreg" then
    let s1 := skipWs s
    if s1.head? = some 116 then
      some ({ c with flags := { c.flags with file := false } }, nameSet, s1.drop 4)
    else some (c, nameSet, s1.drop 5)
  else
    (parseSkip f SkipTask.value s).map (fun r => (c, nameSet, r))

/-- The key/value loop of `parse_item_info` (dir_cache.c:578). -/
def parseItemInfoLoop : Nat → List Nat → CacheChild → Bool → Option (CacheChild × Bool × List Nat)
  | 0, _, _, _ => none
  | Nat.succ f, s, c, nameSet =>
    let s1 := skipWs s
    match s1 with
    | 125 :: r => some (c, nameSet, r)
    | _ =>
      match parse_string 32768 f s1 with
      | none => none
      | some kx =>
        match parse_expect 58 kx.2 with
        | none => none
        | some r2 =>
          match parseItemField f kx.1 r2 c nameSet with
          | none => none
          | some y =>
            let r4 := skipWs y.2.2
            match r4 with
            | 125 :: r5 => some (y.1, y.2.1, r5)
            | 44 :: r5 => parseItemInfoLoop f r5 y.1 y.2.1
            | _ => parseItemInfoLoop f r4 y.1 y.2.1

/-- `parse_item_info` (dir_cache.c:569): expect the opening brace, default
the child's `dev` to the enclosing directory's, then run the key loop. -/
def parse_item_info (f : Nat) (s : List Nat) (c : CacheChild) (parent_dev : Nat) :
    Option (CacheChild × Bool × List Nat) :=
  match parse_expect 123 s with
  | none => none
  | some r => parseItemInfoLoop f r { c with dev := parent_dev } false

/-- The parse tree of one serialized item: the scalar fields, whether a
`name` key was present (a NULL name in C), and the nested children. -/
inductive PNode where
  | mk (c : CacheChild) (nameSet : Bool) (kids : List PNode)

/-- Scalar fields of a parse node. -/
def PNode.c : PNode → CacheChild
  | PNode.mk x _ _ => x

/-- Whether the node carried a `name` key. -/
def PNode.nameSet : PNode → Bool
  | PNode.mk _ b _ => b

/-- Nested children of the node. -/
def PNode.kids : PNode → List PNode
  | PNode.mk _ _ k => k

mutual

/-- `parse_item` (dir_cache.c:703): a leading `[` makes the item a directory
(flags default to FF_DIR instead of FF_FILE); the info object follows, then,
for directories, the comma-separated children, each parsed with the
directory's own `dev` as default. -/
def parse_item : Nat → List Nat → Nat → Option (PNode × List Nat)
  | 0, _, _ => none
  | Nat.succ f, s, parent_dev =>
    let s1 := skipWs s
    match s1 with
    | 91 :: r =>
      match parse_item_info f (skipWs r) { emptyChild with flags := { noFlags with dir := true } } parent_dev with
      | none => none
      | some y =>
        match parseItemKids f y.2.2 y.1.dev [] with
        | none => none
        | some z => some (PNode.mk y.1 y.2.1 z.1, z.2)
    | _ =>
      match parse_item_info f s1 { emptyChild with flags := { noFlags with file := true } } parent_dev with
      | none => none
      | some y => some (PNode.mk y.1 y.2.1 [], y.2.2)

/-- The children loop of `parse_item` (dir_cache.c:732). -/
def parseItemKids : Nat → List Nat → Nat → List PNode → Option (List PNode × List Nat)
  | 0, _, _, _ => none
  | Nat.succ f, s, dv, acc =>
    let s1 := skipWs s
    match s1 with
    | 93 :: r => some (acc.reverse, r)
    | 44 :: r =>
      match parse_item f r dv with
      | none => none
      | some k => parseItemKids f k.2 dv (k.1 :: acc)
    | _ => none

end

/-! ## Building index entries from parsed items (dir_cache.c:773) -/

/-- Path concatenation as done by `build_cache_entries` and
`dir_cache_replay_recursive`: a separating slash is inserted only when the
parent is non-empty and does not already end in one. -/
def joinPath (p n : String) : String :=
  if p.length > 0 && !(p.toList.getLast? == some '/') then p ++ "/" ++ n else p ++ n

/-- `build_cache_entries` (dir_cache.c:773): skip items without a name,
create an entry only for directory items, copy the immediate children
shallowly (nested grand-children are dropped), and keep the first entry on a
duplicate path.  Entries are created with `used = 0`. -/
def build_cache_entries (idx : Index) (parentPath : String) (n : PNode) : Index :=
  match n with
  | PNode.mk c nameSet kids =>
    if nameSet = false then idx
    else
      let fullPath := joinPath parentPath c.name
      if c.flags.dir then
        let entry : CacheEntry :=
          { path := fullPath, mtime := c.mtime, dev := c.dev, ino := c.ino,
            size := c.size, asize := c.asize, items := kids.length, used := false,
            children := kids.map PNode.c }
        match indexLookup idx fullPath with
        | some _ => idx
        | none => idx ++ [entry]
      else idx

/-! ## `dir_cache_load` (dir_cache.c:875) -/

/-- The record loop of `dir_cache_load` (dir_cache.c:930): a `]` ends the
document successfully; otherwise a comma must precede each item.  On error
the entries built so far are kept and `-1` is returned. -/
def loadLoop : Nat → List Nat → Index → Int × Index
  | 0, _, idx => (-1, idx)
  | Nat.succ f, s, idx =>
    match skipWs s with
    | 93 :: _ => (0, idx)
    | 44 :: r =>
      match parse_item f r 0 with
      | none => (-1, idx)
      | some n => loadLoop f n.2 (build_cache_entries idx "" n.1)
    | _ => (-1, idx)

/-- The header-then-records parse of `dir_cache_load` (dir_cache.c:909): the
opening bracket, the major version (which must equal 1), the minor version,
the metadata object, then the records. -/
def loadBody (fuel : Nat) (s : List Nat) (idx : Index) : Int × Index :=
  match parse_expect 91 s with
  | none => (-1, idx)
  | some s1 =>
    match parse_int64 s1 with
    | none => (-1, idx)
    | some m =>
      if m.1 = 1 then
        match parse_expect 44 m.2 with
        | none => (-1, idx)
        | some s3 =>
          match parse_int64 s3 with
          | none => (-1, idx)
          | some mi =>
            match parse_expect 44 mi.2 with
            | none => (-1, idx)
            | some s5 =>
              match parse_skip_object fuel s5 with
              | none => (-1, idx)
              | some s6 => loadLoop fuel s6 idx
      else (-1, idx)

/-- Outcome of the `fopen` in `dir_cache_load`: missing file, another I/O
error, or the file's contents. -/
inductive OpenRes where
  | enoent
  | ioerr
  | ok (bytes : List Nat)

/-- `dir_cache_load` (dir_cache.c:875): on a shared-lock failure the load
reports success without touching the index; a missing file is success;
any other open error is failure; otherwise the document is parsed. -/
def dir_cache_load (fuel : Nat) (lockOk : Bool) (o : OpenRes) (idx : Index) :
    Int × Index :=
  if lockOk = false then (0, idx)
  else
    match o with
    | OpenRes.enoent => (0, idx)
    | OpenRes.ioerr => (-1, idx)
    | OpenRes.ok s => loadBody fuel s idx

/-! ## The scanner's fresh walk (`dir_scan.c`) and the replay engine
(`dir_cache_replay`, dir_cache.c:1063)

The filesystem is modelled as a tree of stat results restricted to the clean
case the cache ever serves: regular files and readable directories on one
device, with no exclusions, errors or followed symlinks.  Events are what
`dir_output.item` receives: an item call, or the directory-closing call
`item(NULL, NULL, NULL, 0)`. -/

/-- The stat results for one filesystem entry. -/
structure FsInfo where
  name : String
  isDir : Bool
  blocks : Int
  stSize : Int
  ino : Nat
  dev : Nat
  mtime : Nat
  uid : Nat
  gid : Nat
  mode : Nat
  nlink : Nat
  deriving DecidableEq, Repr

/-- A subtree of the filesystem. -/
inductive FsEntry where
  | mk (info : FsInfo) (children : List FsEntry)

/-- Stat results of the root of a subtree. -/
def FsEntry.info : FsEntry → FsInfo
  | FsEntry.mk i _ => i

/-- Children of the root of a subtree. -/
def FsEntry.children : FsEntry → List FsEntry
  | FsEntry.mk _ cs => cs

/-- One call to the output sink. -/
inductive Event where
  | item (d : Dir) (name : String) (ext : Option ExtInfo) (nlink : Nat)
  | close
  deriving DecidableEq, Repr

/-- The flags `stat_to_dir` (dir_scan.c:127) computes for a clean entry:
FF_EXT always, FF_FILE or FF_DIR from the mode, FF_HLNKC on multiply-linked
non-directories. -/
def statFlags (i : FsInfo) : Flags :=
  { dir := i.isDir, file := !i.isDir, err := false, exl := false, othfs := false,
    kernfs := false, frmlnk := false,
    hlnkc := !i.isDir && decide (i.nlink > 1), ext := true, cached := false }

/-- The `buf_nlink` value `stat_to_dir` leaves behind: the link count for
multiply-linked non-directories, otherwise zero. -/
def statNlink (i : FsInfo) : Nat :=
  if !i.isDir && decide (i.nlink > 1) then i.nlink else 0

/-- The directory summary `stat_to_dir` fills in: `size` is
`st_blocks * S_BLKSIZE`, `asize` is `st_size`. -/
def statDir (i : FsInfo) : Dir :=
  { flags := statFlags i, size := i.blocks * 512, asize := i.stSize,
    ino := i.ino, dev := i.dev, items := 0 }

/-- The extended info `stat_to_dir` fills in: all four FFE_* bits are always
set (dir_scan.c:155). -/
def statExt (i : FsInfo) : ExtInfo :=
  { hasMtime := true, hasUid := true, hasGid := true, hasMode := true,
    mtime := i.mtime, uid := i.uid, gid := i.gid, mode := i.mode }

/-- The record `walk_context_add_child` (dir_scan.c:397) captures for one
visited entry, taken from `buf_dir`, `buf_ext` and `buf_nlink` right before
recursion. -/
def walkChildRecord (i : FsInfo) : CacheChild :=
  { name := i.name, flags := statFlags i, size := i.blocks * 512,
    asize := i.stSize, ino := i.ino, dev := i.dev, mtime := i.mtime,
    uid := i.uid, gid := i.gid, nlink := statNlink i, mode := i.mode }

/-- The shallow child records a fresh walk collects for a directory's
immediate children. -/
def childRecords (cs : List FsEntry) : List CacheChild :=
  cs.map (fun e => walkChildRecord e.info)

/-- The entry `dir_cache_store` receives after a fresh walk of the directory
at `path` (dir_scan.c:261): the validation triple and sizes come from the
directory's own stat (saved before the children overwrote the shared
buffers), and the children are the collected shallow records. -/
def walkEntryOf (path : String) (e : FsEntry) : CacheEntry :=
  { path := path, mtime := e.info.mtime, dev := e.info.dev, ino := e.info.ino,
    size := e.info.blocks * 512, asize := e.info.stSize, items := 0,
    used := true, children := childRecords e.children }

/-- The event stream a fresh walk emits for a list of sibling entries
(`dir_walk_ctx` + `dir_scan_item_ctx` + `dir_scan_recurse`): each item event,
directories followed by their children's events and a close event.  `fuel`
bounds the recursion depth of the model; both the walk and the replay below
are indexed by the same fuel. -/
def freshGo : Nat → List FsEntry → List Event
  | 0, _ => []
  | Nat.succ _, [] => []
  | Nat.succ f, FsEntry.mk i cs :: es =>
    let ev := Event.item (statDir i) i.name (some (statExt i)) (statNlink i)
    (if i.isDir then ev :: (freshGo f cs ++ [Event.close]) else [ev]) ++ freshGo f es

/-- The flags `dir_cache_replay_recursive` passes to the output sink: the
cached child's flags, with FF_EXT forced on when any extended field is
non-zero (dir_cache.c:1081). -/
def replayFlags (c : CacheChild) : Flags :=
  { c.flags with
    ext := c.flags.ext || c.mtime != 0 || c.uid != 0 || c.gid != 0 || c.mode != 0 }

/-- The extended info `dir_cache_replay_recursive` reconstructs: each FFE_*
bit is set only when the cached field is non-zero (dir_cache.c:1080). -/
def replayExt (c : CacheChild) : ExtInfo :=
  { hasMtime := c.mtime != 0, hasUid := c.uid != 0, hasGid := c.gid != 0,
    hasMode := c.mode != 0, mtime := c.mtime, uid := c.uid, gid := c.gid,
    mode := c.mode }

/-- The directory summary `dir_cache_replay_recursive` rebuilds from a cached
child (dir_cache.c:1071). -/
def replayD (c : CacheChild) : Dir :=
  { flags := replayFlags c, size := c.size, asize := c.asize, ino := c.ino,
    dev := c.dev, items := 0 }

/-- The item event `dir_cache_replay_recursive` emits for one cached child
(dir_cache.c:1103). -/
def replayEvent (c : CacheChild) : Event :=
  Event.item (replayD c) c.name (some (replayExt c)) c.nlink

/-- `dir_cache_replay_recursive` (dir_cache.c:1063) over a list of cached
children: emit the item event; for a directory child, look its own entry up
in the index *by path alone*, mark that entry used, replay its children, and
emit the close event (also when no entry was found).  The index is threaded
to record the `used`-bit mutations.  `fuel` bounds the recursion. -/
def replayGo : Nat → Index → String → List CacheChild → List Event × Index
  | 0, idx, _, _ => ([], idx)
  | Nat.succ _, idx, _, [] => ([], idx)
  | Nat.succ f, idx, p, c :: cs =>
    let step : List Event × Index :=
      if c.flags.dir then
        let cp := joinPath p c.name
        match indexLookup idx cp with
        | some e =>
          let r := replayGo f (indexMarkUsed idx cp) cp e.children
          (replayEvent c :: (r.1 ++ [Event.close]), r.2)
        | none => ([replayEvent c, Event.close], idx)
      else ([replayEvent c], idx)
    let rest := replayGo f step.2 p cs
    (step.1 ++ rest.1, rest.2)

/-- `dir_cache_replay(entry)` (dir_cache.c:1141): replay each of the entry's
children with the entry's path as parent. -/
def dir_cache_replay (fuel : Nat) (idx : Index) (entry : CacheEntry) :
    List Event × Index :=
  replayGo fuel idx entry.path entry.children

/-- Erase the `used` bit, the only entry field replay mutates. -/
def eraseUsed (e : CacheEntry) : CacheEntry :=
  { e with used := false }

/-- Lookup modulo the `used` bit. -/
def coreLookup (idx : Index) (q : String) : Option CacheEntry :=
  (indexLookup idx q).map eraseUsed

/-- All four extended fields are non-zero throughout the subtree list, to
recursion depth `fuel`. -/
def extGo : Nat → List FsEntry → Bool
  | 0, _ => true
  | Nat.succ _, [] => true
  | Nat.succ f, FsEntry.mk i cs :: es =>
    (i.mtime != 0 && i.uid != 0 && i.gid != 0 && i.mode != 0 && extGo f cs) && extGo f es

/-- The index holds, for every directory in the subtree list, exactly the
entry a fresh walk of the unchanged subtree would have stored for it
(compared modulo the `used` bit), to recursion depth `fuel`.  This is the
"unchanged between a fresh walk and a later cached replay" hypothesis. -/
def coversGo : Nat → Index → String → List FsEntry → Bool
  | 0, _, _, _ => true
  | Nat.succ _, _, _, [] => true
  | Nat.succ f, idx, p, FsEntry.mk i cs :: es =>
    (if i.isDir then
       decide (coreLookup idx (joinPath p i.name)
                 = some (eraseUsed (walkEntryOf (joinPath p i.name) (FsEntry.mk i cs))))
       && coversGo f idx (joinPath p i.name) cs
     else true)
    && coversGo f idx p es

/-! ## Index lemmas -/

theorem indexLookup_markUsed_self (idx : Index) (q : String) (E : CacheEntry)
    (h : indexLookup idx q = some E) :
    indexLookup (indexMarkUsed idx q) q = some { E with used := true } := by
  induction idx with
  | nil => simp [indexLookup] at h
  | cons e r ih =>
    by_cases hp : (e.path == q) = true
    · have he : e = E := by simpa [indexLookup, List.find?_cons_of_pos, hp] using h
      subst he
      simp [indexMarkUsed, hp, indexLookup, List.find?_cons_of_pos]
    · have hp' : (e.path == q) = false := by simpa using hp
      have h' : indexLookup r q = some E := by
        simpa [indexLookup, List.find?_cons_of_neg, hp'] using h
      have hr := ih h'
      simp only [indexLookup] at hr
      simp [indexMarkUsed, hp', indexLookup, List.find?_cons_of_neg, hr]

theorem coreLookup_markUsed (idx : Index) (q0 q : String) :
    coreLookup (indexMarkUsed idx q0) q = coreLookup idx q := by
  induction idx with
  | nil => rfl
  | cons e r ih =>
    by_cases h0 : (e.path == q0) = true
    · by_cases hq : (e.path == q) = true
      · simp [indexMarkUsed, h0, coreLookup, indexLookup, List.find?_cons_of_pos, hq,
          eraseUsed]
      · have hq' : (e.path == q) = false := by simpa using hq
        simp [indexMarkUsed, h0, coreLookup, indexLookup, List.find?_cons_of_neg, hq']
    · have h0' : (e.path == q0) = false := by simpa using h0
      by_cases hq : (e.path == q) = true
      · simp [indexMarkUsed, h0', coreLookup, indexLookup, List.find?_cons_of_pos, hq]
      · have hq' : (e.path == q) = false := by simpa using hq
        have := ih
        simp only [coreLookup, indexLookup] at this ⊢
        simp [indexMarkUsed, h0', List.find?_cons_of_neg, hq', this]

theorem indexLookup_replace_self (idx : Index) (q : String) (ne : CacheEntry)
    (hfound : (indexLookup idx q).isSome = true) (hne : ne.path = q) :
    indexLookup (indexReplace idx q ne) q = some ne := by
  induction idx with
  | nil => simp [indexLookup] at hfound
  | cons e r ih =>
    by_cases hp : (e.path == q) = true
    · have hne' : (ne.path == q) = true := by simp [hne]
      simp [indexReplace, hp, indexLookup, List.find?_cons_of_pos, hne']
    · have hp' : (e.path == q) = false := by simpa using hp
      have h' : (indexLookup r q).isSome = true := by
        simpa [indexLookup, List.find?_cons_of_neg, hp'] using hfound
      have hr := ih h'
      simp only [indexLookup] at hr
      simp [indexReplace, hp', indexLookup, List.find?_cons_of_neg, hr]

theorem savedEntries_eq_filter (idx : Index) :
    savedEntries idx = idx.filter (fun e => e.used) := by
  induction idx with
  | nil => rfl
  | cons e r ih =>
    by_cases h : e.used = true <;> simp [savedEntries, List.filter_cons, h, ih]

theorem mem_savedEntries_iff (idx : Index) (a : CacheEntry) :
    a ∈ savedEntries idx ↔ a ∈ idx ∧ a.used = true := by
  rw [savedEntries_eq_filter]
  simp [List.mem_filter]

/-! ## Claim C2 -/

/-- Claim C2: for every entry `E` present in the index,
`dir_cache_lookup(E.path, E.mtime, E.dev, E.ino)` returns `E` with its `used`
flag set (both in the returned value and in the index), while a lookup on an
absent path or with any component of the mtime/dev/ino triple differing from
the stored entry misses and leaves the index unchanged. -/
theorem dir_cache_lookup_validates_triple :
    ∀ (idx : Index) (E : CacheEntry), indexLookup idx E.path = some E →
      (dir_cache_lookup idx E.path E.mtime E.dev E.ino).1 = some { E with used := true }
      ∧ indexLookup ((dir_cache_lookup idx E.path E.mtime E.dev E.ino).2) E.path
          = some { E with used := true }
      ∧ (∀ m d i, (m, d, i) ≠ (E.mtime, E.dev, E.ino) →
          dir_cache_lookup idx E.path m d i = (none, idx))
      ∧ (∀ p m d i, indexLookup idx p = none →
          dir_cache_lookup idx p m d i = (none, idx)) := by
  intro idx E h
  refine ⟨?_, ?_, ?_, ?_⟩
  · simp [dir_cache_lookup, h]
  · simp only [dir_cache_lookup, h]
    simp [indexLookup_markUsed_self idx E.path E h]
  · intro m d i hne
    have hc : E.mtime ≠ m ∨ E.dev ≠ d ∨ E.ino ≠ i := by
      by_contra hcon
      push_neg at hcon
      exact hne (by simp [hcon.1, hcon.2.1, hcon.2.2])
    simp only [dir_cache_lookup, h]
    rw [if_pos hc]
  · intro p m d i hnone
    simp [dir_cache_lookup, hnone]

/-- Witness for C2 at a concrete one-entry index. -/
def c2Entry : CacheEntry :=
  { path := "/a", mtime := 9, dev := 5, ino := 7, size := 8192, asize := 3000,
    items := 2, used := false, children := [] }

theorem dir_cache_lookup_validates_triple_witness :
    indexLookup [c2Entry] c2Entry.path = some c2Entry
    ∧ (dir_cache_lookup [c2Entry] c2Entry.path c2Entry.mtime c2Entry.dev c2Entry.ino).1
        = some { c2Entry with used := true }
    ∧ dir_cache_lookup [c2Entry] c2Entry.path 10 c2Entry.dev c2Entry.ino
        = (none, [c2Entry]) := by
  have h : indexLookup [c2Entry] c2Entry.path = some c2Entry := by decide
  have hmain := dir_cache_lookup_validates_triple [c2Entry] c2Entry h
  exact ⟨h, hmain.1, hmain.2.2.1 10 c2Entry.dev c2Entry.ino (by decide)⟩

/-! ## Claim C4 -/

/-- Claim C4: the save loop serializes exactly the entries whose `used` flag
is true; `dir_cache_store` on an existing path replaces the entry in the map,
returns the displaced entry with its `used` flag cleared, and the displaced
entry is never written by a subsequent save. -/
theorem dir_cache_save_writes_exactly_used :
    (∀ idx : Index, savedEntries idx = idx.filter (fun e => e.used)) ∧
    (∀ (idx : Index) (path : String) (d : Dir) (ext : Option ExtInfo)
       (ch : List CacheChild) (old : CacheEntry),
      indexLookup idx path = some old →
        (dir_cache_store idx path d ext ch).2 = some { old with used := false }
        ∧ indexLookup (dir_cache_store idx path d ext ch).1 path
            = some (mkStoreEntry path d ext ch)
        ∧ { old with used := false } ∉ savedEntries (dir_cache_store idx path d ext ch).1) := by
  refine ⟨savedEntries_eq_filter, ?_⟩
  intro idx path d ext ch old h
  refine ⟨?_, ?_, ?_⟩
  · simp [dir_cache_store, h]
  · simp only [dir_cache_store, h]
    exact indexLookup_replace_self idx path (mkStoreEntry path d ext ch)
      (by simp [h]) rfl
  · intro hmem
    have := (mem_savedEntries_iff _ _).mp hmem
    simp at this

/-- Witness for C4 at a concrete one-entry index. -/
def c4Old : CacheEntry :=
  { path := "/a", mtime := 9, dev := 5, ino := 7, size := 8192, asize := 3000,
    items := 2, used := true, children := [] }

/-- Directory summary used by the C4 witness store. -/
def c4Dir : Dir :=
  { flags := { noFlags with dir := true, ext := true }, size := 4096,
    asize := 100, ino := 7, dev := 5, items := 1 }

theorem dir_cache_save_writes_exactly_used_witness :
    savedEntries [c4Old] = [c4Old]
    ∧ (dir_cache_store [c4Old] "/a" c4Dir none []).2 = some { c4Old with used := false }
    ∧ { c4Old with used := false } ∉ savedEntries (dir_cache_store [c4Old] "/a" c4Dir none []).1 := by
  have h : indexLookup [c4Old] "/a" = some c4Old := by decide
  have hmain := dir_cache_save_writes_exactly_used.2 [c4Old] "/a" c4Dir none [] c4Old h
  exact ⟨by decide, hmain.1, hmain.2.2⟩

/-! ## Claim C3 -/

/-- The save environment in which everything succeeds except the final
directory fsync. -/
def saveEnvDirFsyncFail : SaveEnv :=
  { lockOk := true, mkstempOk := true, fdopenOk := true, flushOk := true,
    fsyncOk := true, fcloseOk := true, renameOk := true, dirFsyncOk := false }

/-- Claim C3 counterexample: when step 5 (the fsync of the containing
directory) fails, the target cache file is *not* left at its previous
contents — the rename has already replaced it, so a failure in "steps 2
through 5" does not always leave the target untouched. -/
theorem dir_fsync_failure_still_commits :
    dir_cache_save_fs saveEnvDirFsyncFail 1 { target := some 0, tmp := false }
      = { target := some 1, tmp := false }
    ∧ ({ target := some 1, tmp := false } : SaveFs) ≠ { target := some 0, tmp := false } := by
  exact ⟨rfl, by decide⟩

/-- Claim C3 (amended): any failure in steps 2 through 4 — streaming and
flushing the JSON, fsyncing the temp file, closing it, or renaming it over
the target — unlinks the temp file and leaves the target at its previous
contents; once the rename has succeeded the save is committed, and a failure
of the directory fsync (step 5) does not undo it. -/
theorem dir_cache_save_rollback_and_commit :
    (∀ (env : SaveEnv) (n : Nat) (fs : SaveFs),
       env.flushOk = false ∨ env.fsyncOk = false ∨ env.fcloseOk = false ∨ env.renameOk = false →
       env.lockOk = true → env.mkstempOk = true → env.fdopenOk = true →
       dir_cache_save_fs env n fs = { target := fs.target, tmp := false }) ∧
    (∀ (env : SaveEnv) (n : Nat) (fs : SaveFs),
       env.lockOk = true → env.mkstempOk = true → env.fdopenOk = true →
       env.flushOk = true → env.fsyncOk = true → env.fcloseOk = true → env.renameOk = true →
       dir_cache_save_fs env n fs = { target := some n, tmp := false }) := by
  constructor
  · intro env n fs hfail hl hm hd
    cases hf : env.flushOk <;> cases hs : env.fsyncOk <;> cases hc : env.fcloseOk <;>
      cases hr : env.renameOk <;> simp_all [dir_cache_save_fs]
  · intro env n fs hl hm hd hf hs hc hr
    simp [dir_cache_save_fs, hl, hm, hd, hf, hs, hc, hr]

/-- Witness for C3: a concrete fsync failure of the temp file rolls the save
back, and a fully successful run commits. -/
def saveEnvFsyncFail : SaveEnv :=
  { lockOk := true, mkstempOk := true, fdopenOk := true, flushOk := true,
    fsyncOk := false, fcloseOk := true, renameOk := true, dirFsyncOk := true }

theorem dir_cache_save_rollback_and_commit_witness :
    dir_cache_save_fs saveEnvFsyncFail 3 { target := some 2, tmp := false }
      = { target := some 2, tmp := false }
    ∧ dir_cache_save_fs saveEnvDirFsyncFail 3 { target := some 2, tmp := false }
      = { target := some 3, tmp := false } := by
  exact ⟨dir_cache_save_rollback_and_commit.1 saveEnvFsyncFail 3 _
      (by decide) (by decide) (by decide) (by decide),
    dir_cache_save_rollback_and_commit.2 saveEnvDirFsyncFail 3 _
      (by decide) (by decide) (by decide) (by decide) (by decide) (by decide) (by decide)⟩

/-! ## Claim C7 -/

/-- Claim C7 counterexample: with an alive holder pid and the body
`"5 0\n"`, the timestamp 0 is more than 300 seconds in the past at time 1000,
so the claimed characterization ("stale iff pid dead or timestamp older than
300 s") demands staleness — but `is_lock_stale` guards the age test with
`holder_timestamp > 0` and reports the holder fresh. -/
theorem zero_timestamp_not_stale :
    ¬ (is_lock_stale (fun _ => true) 1000 (some "5 0\n") = true
        ↔ (process_alive (fun _ => true) 5 = false ∨ (1000 : Int) - 0 > 300)) := by
  decide

/-- Claim C7 (amended): for every lock-file body that parses as
`"<pid> <timestamp>"`, the holder is judged stale iff the pid is not alive
(signal-0 probe, pids `<= 0` never alive) or the timestamp is positive and
older than 300 seconds relative to the current time; non-positive timestamps
never trigger the age test. -/
theorem is_lock_stale_characterization :
    ∀ (probe : Int → Bool) (now pid ts : Int) (body : Option String),
      read_lock_info body = some (pid, ts) →
      (is_lock_stale probe now body = true
        ↔ (process_alive probe pid = false ∨ (ts > 0 ∧ now - ts > 300))) := by
  intro probe now pid ts body h
  simp only [is_lock_stale, h]
  by_cases ha : process_alive probe pid = false
  · simp [ha]
  · have ha' : process_alive probe pid = true := by
      cases hx : process_alive probe pid
      · exact absurd hx ha
      · rfl
    by_cases hc : ts > 0 ∧ now - ts > 300
    · simp [ha', hc]
    · simp [ha', hc]

/-- Witness for C7: a dead holder with a fresh timestamp is stale. -/
theorem is_lock_stale_characterization_witness :
    read_lock_info (some "7 900\n") = some (7, 900)
    ∧ (is_lock_stale (fun _ => false) 1000 (some "7 900\n") = true
        ↔ (process_alive (fun _ => false) 7 = false ∨ ((900 : Int) > 0 ∧ (1000 : Int) - 900 > 300))) := by
  refine ⟨by decide, ?_⟩
  exact is_lock_stale_characterization (fun _ => false) 1000 7 900 (some "7 900\n") (by decide)

/-! ## Claim C10 -/

/-- Claim C10: a lock-file body that cannot be read or does not parse as
`"<pid> <timestamp>"` (for example the empty body left by a holder that never
wrote one) is treated as stale, and a stale verdict makes the acquirer
attempt a takeover on its first contended iteration even in non-blocking
mode. -/
theorem unparsable_lock_body_is_stale :
    (∀ (probe : Int → Bool) (now : Int), is_lock_stale probe now none = true)
    ∧ read_lock_info (some "") = none
    ∧ (∀ (probe : Int → Bool) (now : Int) (body : String),
        read_lock_info (some body) = none → is_lock_stale probe now (some body) = true)
    ∧ (∀ (env : AcqEnv) (f : Nat),
        is_lock_stale env.probe env.now env.readRes = true →
        env.tryMain 0 = FlockRes.wouldblock →
        env.takeoverEx = FlockRes.ok →
        env.takeoverWriteOk = true →
        acquireLoop env LockMode.exclusive 0 (f + 1) 0 true = some LockMode.exclusive) := by
  refine ⟨?_, by decide, ?_, ?_⟩
  · intro probe now
    simp [is_lock_stale, read_lock_info]
  · intro probe now body h
    simp [is_lock_stale, h]
  · intro env f h1 h2 h3 h4
    simp [acquireLoop, h1, h2, h3, h4]

/-- Witness for C10: an empty lock body enables a successful non-blocking
takeover. -/
def c10Env : AcqEnv :=
  { pathSet := true, openOk := true, tryMain := fun _ => FlockRes.wouldblock,
    writeInfoOk := fun _ => true, takeoverEx := FlockRes.ok,
    takeoverSh := FlockRes.ok, takeoverWriteOk := true,
    readRes := some "", probe := fun _ => true, now := 0, elapsed := fun _ => 0 }

theorem unparsable_lock_body_is_stale_witness :
    is_lock_stale c10Env.probe c10Env.now c10Env.readRes = true
    ∧ acquireLoop c10Env LockMode.exclusive 0 3 0 true = some LockMode.exclusive := by
  refine ⟨unparsable_lock_body_is_stale.2.2.1 c10Env.probe c10Env.now "" (by decide), ?_⟩
  exact unparsable_lock_body_is_stale.2.2.2 c10Env 2
    (unparsable_lock_body_is_stale.2.2.1 c10Env.probe c10Env.now "" (by decide))
    rfl rfl rfl

/-! ## Claim C8 -/

/-- Claim C8: a process holds at most one cache lock; with an exclusive lock
held any request succeeds with no state change, with a shared lock held a
shared request succeeds with no state change, and a shared-to-exclusive
upgrade first releases the held lock and then behaves exactly like a fresh
acquisition from the unlocked state. -/
theorem cache_lock_acquire_idempotent_and_upgrade :
    (∀ (env : AcqEnv) (st : LockState) (mode : LockMode) (t : Int) (fuel : Nat),
       env.pathSet = true → st.held = true → st.mode = LockMode.exclusive →
       cache_lock_acquire env st mode t fuel = (0, st))
    ∧ (∀ (env : AcqEnv) (st : LockState) (t : Int) (fuel : Nat),
       env.pathSet = true → st.held = true → st.mode = LockMode.shared →
       cache_lock_acquire env st LockMode.shared t fuel = (0, st))
    ∧ (∀ (env : AcqEnv) (st : LockState) (t : Int) (fuel : Nat),
       env.pathSet = true → st.held = true → st.mode = LockMode.shared →
       cache_lock_acquire env st LockMode.exclusive t fuel
           = cache_lock_acquire env (cache_lock_release st) LockMode.exclusive t fuel
       ∧ (cache_lock_release st).held = false) := by
  refine ⟨?_, ?_, ?_⟩
  · intro env st mode t fuel hp hh hm
    simp [cache_lock_acquire, hp, hh, hm]
  · intro env st t fuel hp hh hm
    simp [cache_lock_acquire, hp, hh, hm]
  · intro env st t fuel hp hh hm
    refine ⟨?_, rfl⟩
    simp [cache_lock_acquire, hp, hh, hm, cache_lock_release]

/-- Witness environment for C8: the fresh acquisition succeeds on the first
flock attempt. -/
def c8Env : AcqEnv :=
  { pathSet := true, openOk := true, tryMain := fun _ => FlockRes.ok,
    writeInfoOk := fun _ => true, takeoverEx := FlockRes.ok,
    takeoverSh := FlockRes.ok, takeoverWriteOk := true,
    readRes := none, probe := fun _ => true, now := 0, elapsed := fun _ => 0 }

theorem cache_lock_acquire_idempotent_and_upgrade_witness :
    cache_lock_acquire c8Env { held := true, mode := LockMode.exclusive } LockMode.shared 5 3
        = (0, { held := true, mode := LockMode.exclusive })
    ∧ cache_lock_acquire c8Env { held := true, mode := LockMode.shared } LockMode.shared 5 3
        = (0, { held := true, mode := LockMode.shared })
    ∧ cache_lock_acquire c8Env { held := true, mode := LockMode.shared } LockMode.exclusive 5 3
        = cache_lock_acquire c8Env
            (cache_lock_release { held := true, mode := LockMode.shared }) LockMode.exclusive 5 3 := by
  refine ⟨?_, ?_, ?_⟩
  · exact cache_lock_acquire_idempotent_and_upgrade.1 c8Env _ LockMode.shared 5 3 rfl rfl rfl
  · exact cache_lock_acquire_idempotent_and_upgrade.2.1 c8Env _ 5 3 rfl rfl rfl
  · exact (cache_lock_acquire_idempotent_and_upgrade.2.2 c8Env _ 5 3 rfl rfl rfl).1

/-! ## Claim C6 -/

/-- Claim C6 (code bug): the encoder turns byte 0x01 into the lowercase
zero-padded escape `\u0001`, but `parse_string` *skips* `\u` escapes without
decoding them, so the encode-then-decode round trip loses the byte: the name
`[1]` comes back as the empty name.  (`32768` is MAX_VAL, the destination
size used for names; fuel 20 exceeds the input length.) -/
theorem escape_roundtrip_drops_control_byte :
    output_string [1] = [92, 117, 48, 48, 48, 49]
    ∧ parse_string 32768 20 (34 :: output_string [1] ++ [34]) = some ([], [])
    ∧ ([] : List Nat) ≠ [1] := by
  decide

/-! ## Claim C5 -/

/-- Claim C5: `dir_cache_load` returns success leaving the index unchanged
when the shared lock cannot be acquired, returns success when the cache file
is missing, returns failure on a parse error, and rejects any document whose
major version parses to something other than 1. -/
theorem dir_cache_load_soft_errors_and_version :
    (∀ (fuel : Nat) (o : OpenRes) (idx : Index),
        dir_cache_load fuel false o idx = (0, idx))
    ∧ (∀ (fuel : Nat) (idx : Index),
        dir_cache_load fuel true OpenRes.enoent idx = (0, idx))
    ∧ (∀ (fuel : Nat) (idx : Index),
        dir_cache_load fuel true (OpenRes.ok (strBytes "garbage")) idx = (-1, idx))
    ∧ (∀ (fuel : Nat) (s s1 s2 : List Nat) (m : Int) (idx : Index),
        parse_expect 91 s = some s1 → parse_int64 s1 = some (m, s2) → m ≠ 1 →
        dir_cache_load fuel true (OpenRes.ok s) idx = (-1, idx)) := by
  refine ⟨?_, ?_, ?_, ?_⟩
  · intro fuel o idx
    simp [dir_cache_load]
  · intro fuel idx
    simp [dir_cache_load]
  · intro fuel idx
    have h : parse_expect 91 (strBytes "garbage") = none := by decide
    simp [dir_cache_load, loadBody, h]
  · intro fuel s s1 s2 m idx h1 h2 h3
    simp [dir_cache_load, loadBody, h1, h2, h3]

/-- Witness for C5: a concrete document with major version 2 is rejected. -/
theorem dir_cache_load_soft_errors_and_version_witness :
    parse_expect 91 (strBytes "[2,0]") = some (strBytes "2,0]")
    ∧ parse_int64 (strBytes "2,0]") = some (2, strBytes ",0]")
    ∧ dir_cache_load 9 true (OpenRes.ok (strBytes "[2,0]")) [] = (-1, []) := by
  refine ⟨by decide, by decide, ?_⟩
  exact dir_cache_load_soft_errors_and_version.2.2.2 9 (strBytes "[2,0]")
    (strBytes "2,0]") (strBytes ",0]") 2 [] (by decide) (by decide) (by decide)

/-! ## Claim C1: replay refines the fresh walk -/

@[simp] theorem walkChildRecord_flags (i : FsInfo) :
    (walkChildRecord i).flags = statFlags i := rfl

@[simp] theorem walkChildRecord_name (i : FsInfo) :
    (walkChildRecord i).name = i.name := rfl

@[simp] theorem statFlags_dir (i : FsInfo) : (statFlags i).dir = i.isDir := rfl

theorem coversGo_congr : ∀ (f : Nat) (idx1 idx2 : Index) (p : String) (cs : List FsEntry),
    (∀ q, coreLookup idx2 q = coreLookup idx1 q) →
    coversGo f idx1 p cs = true → coversGo f idx2 p cs = true := by
  intro f
  induction f with
  | zero => intro idx1 idx2 p cs _ _; rfl
  | succ f ih =>
    intro idx1 idx2 p cs h hc
    match cs with
    | [] => rfl
    | FsEntry.mk i gs :: es =>
      simp only [coversGo, Bool.and_eq_true] at hc ⊢
      obtain ⟨hc1, hc2⟩ := hc
      refine ⟨?_, ih idx1 idx2 p es h hc2⟩
      cases hd : i.isDir
      · simp [hd]
      · rw [hd] at hc1
        simp only [if_true] at hc1 ⊢
        rw [Bool.and_eq_true] at hc1
        obtain ⟨hce, hcg⟩ := hc1
        rw [decide_eq_true_eq] at hce
        simp only [hd, if_true, Bool.and_eq_true, decide_eq_true_eq]
        exact ⟨by rw [h]; exact hce, ih idx1 idx2 (joinPath p i.name) gs h hcg⟩

theorem replayEvent_walkChildRecord (i : FsInfo)
    (h1 : (i.mtime != 0) = true) (h2 : (i.uid != 0) = true)
    (h3 : (i.gid != 0) = true) (h4 : (i.mode != 0) = true) :
    replayEvent (walkChildRecord i)
      = Event.item (statDir i) i.name (some (statExt i)) (statNlink i) := by
  unfold replayEvent walkChildRecord replayD replayFlags replayExt statDir statExt statFlags
  simp [h1, h2, h3, h4]

theorem replayGo_cons_nondir (f : Nat) (idx : Index) (p : String) (c : CacheChild)
    (cs : List CacheChild) (hdir : c.flags.dir = false) :
    replayGo (f + 1) idx p (c :: cs)
      = (replayEvent c :: (replayGo f idx p cs).1, (replayGo f idx p cs).2) := by
  simp only [replayGo, hdir]
  simp

theorem replayGo_cons_dir (f : Nat) (idx : Index) (p : String) (c : CacheChild)
    (cs : List CacheChild) (E : CacheEntry) (hdir : c.flags.dir = true)
    (hE : indexLookup idx (joinPath p c.name) = some E) :
    replayGo (f + 1) idx p (c :: cs)
      = ((replayEvent c :: ((replayGo f (indexMarkUsed idx (joinPath p c.name))
             (joinPath p c.name) E.children).1 ++ [Event.close]))
           ++ (replayGo f (replayGo f (indexMarkUsed idx (joinPath p c.name))
                 (joinPath p c.name) E.children).2 p cs).1,
         (replayGo f (replayGo f (indexMarkUsed idx (joinPath p c.name))
                 (joinPath p c.name) E.children).2 p cs).2) := by
  simp only [replayGo, hdir, hE, if_true]

theorem replayGo_eq_freshGo :
    ∀ (fuel : Nat) (idx : Index) (p : String) (cs : List FsEntry),
      extGo fuel cs = true → coversGo fuel idx p cs = true →
      (replayGo fuel idx p (childRecords cs)).1 = freshGo fuel cs
      ∧ ∀ q, coreLookup (replayGo fuel idx p (childRecords cs)).2 q = coreLookup idx q := by
  intro fuel
  induction fuel with
  | zero => intro idx p cs _ _; exact ⟨rfl, fun _ => rfl⟩
  | succ f ih =>
    intro idx p cs hext hcov
    match cs with
    | [] => exact ⟨rfl, fun _ => rfl⟩
    | FsEntry.mk i gs :: es =>
      simp only [extGo, Bool.and_eq_true] at hext
      obtain ⟨⟨⟨⟨⟨hm, hu⟩, hg⟩, hmo⟩, hgs⟩, hes⟩ := hext
      simp only [coversGo, Bool.and_eq_true] at hcov
      obtain ⟨hcov1, hcoves⟩ := hcov
      have hrec : childRecords (FsEntry.mk i gs :: es)
          = walkChildRecord i :: childRecords es := rfl
      cases hd : i.isDir
      · -- non-directory child: a single item event, no index change
        have hstep : replayGo (f + 1) idx p (childRecords (FsEntry.mk i gs :: es))
            = ([replayEvent (walkChildRecord i)]
                 ++ (replayGo f idx p (childRecords es)).1,
               (replayGo f idx p (childRecords es)).2) := by
          rw [hrec]
          simp only [replayGo, walkChildRecord_flags, statFlags_dir, hd]
          simp
        have ihes := ih idx p es hes hcoves
        refine ⟨?_, ?_⟩
        · rw [hstep]
          simp only [freshGo, hd, if_false]
          rw [ihes.1, replayEvent_walkChildRecord i hm hu hg hmo]
          simp
        · intro q
          rw [hstep]
          exact ihes.2 q
      · -- directory child: look up its own entry, mark it used, replay it
        rw [hd] at hcov1
        simp only [if_true, Bool.and_eq_true, decide_eq_true_eq] at hcov1
        obtain ⟨hce, hcg⟩ := hcov1
        obtain ⟨E, hE, hEe⟩ := Option.map_eq_some'.mp hce
        have hEch : E.children = childRecords gs := congrArg CacheEntry.children hEe
        have hcg2 : coversGo f (indexMarkUsed idx (joinPath p i.name)) (joinPath p i.name) gs = true :=
          coversGo_congr f idx _ (joinPath p i.name) gs
            (fun q => coreLookup_markUsed idx (joinPath p i.name) q) hcg
        have ihg := ih (indexMarkUsed idx (joinPath p i.name)) (joinPath p i.name) gs hgs hcg2
        have hcore1 : ∀ q,
            coreLookup (replayGo f (indexMarkUsed idx (joinPath p i.name)) (joinPath p i.name)
              (childRecords gs)).2 q = coreLookup idx q := by
          intro q
          rw [ihg.2 q]
          exact coreLookup_markUsed idx (joinPath p i.name) q
        have hcoves2 : coversGo f (replayGo f (indexMarkUsed idx (joinPath p i.name))
            (joinPath p i.name) (childRecords gs)).2 p es = true :=
          coversGo_congr f idx _ p es hcore1 hcoves
        have ihes := ih _ p es hes hcoves2
        have hstep : replayGo (f + 1) idx p (childRecords (FsEntry.mk i gs :: es))
            = ((replayEvent (walkChildRecord i)
                  :: ((replayGo f (indexMarkUsed idx (joinPath p i.name)) (joinPath p i.name)
                        (childRecords gs)).1 ++ [Event.close]))
                 ++ (replayGo f (replayGo f (indexMarkUsed idx (joinPath p i.name))
                        (joinPath p i.name) (childRecords gs)).2 p (childRecords es)).1,
               (replayGo f (replayGo f (indexMarkUsed idx (joinPath p i.name))
                        (joinPath p i.name) (childRecords gs)).2 p (childRecords es)).2) := by
          rw [hrec]
          have := replayGo_cons_dir f idx p (walkChildRecord i) (childRecords es) E
            (by simp [hd]) (by simpa using hE)
          simpa [hEch] using this
        refine ⟨?_, ?_⟩
        · rw [hstep]
          simp only [freshGo, hd, if_true]
          rw [ihg.1, ihes.1, replayEvent_walkChildRecord i hm hu hg hmo]
        · intro q
          rw [hstep]
          rw [ihes.2 q]
          exact hcore1 q

/-- Claim C1 (amended): within a process, for a directory subtree that is
unchanged between a fresh walk and a later cached replay (the index holds
exactly the entries the fresh walk stored), the event sequence
`dir_cache_replay` emits equals, event by event, the sequence the scanner's
fresh walk emits for the subtree's children — provided every cached child's
four extended fields are non-zero.  In general the two streams differ only in
the EXT presence bits: a fresh walk always captures all four extended fields,
while replay raises an extended field's flag only when the cached value is
non-zero, so a zero mtime/uid/gid/mode loses its flag on replay. -/
theorem dir_cache_replay_refines_fresh_walk :
    (∀ (fuel : Nat) (idx : Index) (p : String) (e : FsEntry),
       extGo fuel e.children = true → coversGo fuel idx p e.children = true →
       (dir_cache_replay fuel idx (walkEntryOf p e)).1 = freshGo fuel e.children)
    ∧ (∀ i : FsInfo, (statExt i).hasMtime = true ∧ (statExt i).hasUid = true
        ∧ (statExt i).hasGid = true ∧ (statExt i).hasMode = true)
    ∧ (∀ c : CacheChild, (replayExt c).hasMtime = (c.mtime != 0)
        ∧ (replayExt c).hasUid = (c.uid != 0) ∧ (replayExt c).hasGid = (c.gid != 0)
        ∧ (replayExt c).hasMode = (c.mode != 0)) := by
  refine ⟨?_, ?_, ?_⟩
  · intro fuel idx p e hext hcov
    exact (replayGo_eq_freshGo fuel idx p e.children hext hcov).1
  · intro i
    exact ⟨rfl, rfl, rfl, rfl⟩
  · intro c
    exact ⟨rfl, rfl, rfl, rfl⟩

/-- The subtree of the C1 counterexample: a directory `/r` holding a single
regular file `f` owned by uid 0. -/
def c1FileInfo : FsInfo :=
  { name := "f", isDir := false, blocks := 8, stSize := 1000, ino := 3, dev := 1,
    mtime := 100, uid := 0, gid := 1, mode := 420, nlink := 1 }

/-- The file entry of the C1 counterexample. -/
def c1Root : FsEntry :=
  FsEntry.mk
    { name := "r", isDir := true, blocks := 8, stSize := 4096, ino := 2, dev := 1,
      mtime := 100, uid := 1000, gid := 1, mode := 493, nlink := 2 }
    [FsEntry.mk c1FileInfo []]

/-- The index a fresh walk of `/r` leaves behind. -/
def c1Idx : Index := [walkEntryOf "/r" c1Root]

/-- Claim C1 counterexample: the subtree is unchanged (the index holds
exactly what the fresh walk stored), yet the replayed event stream is not
equal to the fresh walk's — the file's uid is 0, so replay clears the
FFE_UID presence bit while the fresh walk sets it. -/
theorem replay_zero_uid_event_mismatch :
    coversGo 5 c1Idx "/r" (FsEntry.children c1Root) = true
    ∧ extGo 5 (FsEntry.children c1Root) = false
    ∧ (dir_cache_replay 5 c1Idx (walkEntryOf "/r" c1Root)).1
        ≠ freshGo 5 (FsEntry.children c1Root) := by
  refine ⟨by decide, by decide, by decide⟩

/-- The subtree of the C1 witness: `/w` holds a directory `d` which holds a
file `g`; every extended field is non-zero. -/
def c1wRoot : FsEntry :=
  FsEntry.mk
    { name := "w", isDir := true, blocks := 8, stSize := 4096, ino := 2, dev := 1,
      mtime := 60, uid := 7, gid := 8, mode := 493, nlink := 2 }
    [FsEntry.mk
      { name := "d", isDir := true, blocks := 8, stSize := 4096, ino := 5, dev := 1,
        mtime := 61, uid := 7, gid := 8, mode := 493, nlink := 2 }
      [FsEntry.mk
        { name := "g", isDir := false, blocks := 8, stSize := 500, ino := 4, dev := 1,
          mtime := 50, uid := 7, gid := 8, mode := 420, nlink := 1 }
        []]]

/-- The C1 witness subdirectory entry. -/
def c1wSub : FsEntry :=
  FsEntry.mk
    { name := "d", isDir := true, blocks := 8, stSize := 4096, ino := 5, dev := 1,
      mtime := 61, uid := 7, gid := 8, mode := 493, nlink := 2 }
    [FsEntry.mk
      { name := "g", isDir := false, blocks := 8, stSize := 500, ino := 4, dev := 1,
        mtime := 50, uid := 7, gid := 8, mode := 420, nlink := 1 }
      []]

/-- The index a fresh walk of `/w` leaves behind (one entry per directory,
flat forest). -/
def c1wIdx : Index :=
  [walkEntryOf "/w" c1wRoot, walkEntryOf (joinPath "/w" "d") c1wSub]

theorem dir_cache_replay_refines_fresh_walk_witness :
    extGo 4 (FsEntry.children c1wRoot) = true
    ∧ coversGo 4 c1wIdx "/w" (FsEntry.children c1wRoot) = true
    ∧ (dir_cache_replay 4 c1wIdx (walkEntryOf "/w" c1wRoot)).1
        = freshGo 4 (FsEntry.children c1wRoot) := by
  refine ⟨by decide, by decide, ?_⟩
  exact dir_cache_replay_refines_fresh_walk.1 4 c1wIdx "/w" c1wRoot (by decide) (by decide)

/-! ## Claim C9 -/

theorem replayGo_flat : ∀ (f : Nat) (idx : Index) (p : String) (gcs : List CacheChild),
    (∀ gc ∈ gcs, gc.flags.dir = false) → gcs.length ≤ f →
    replayGo f idx p gcs = (gcs.map replayEvent, idx) := by
  intro f
  induction f with
  | zero =>
    intro idx p gcs _ hl
    have : gcs = [] := List.eq_nil_of_length_eq_zero (Nat.le_zero.mp hl)
    subst this
    rfl
  | succ f ih =>
    intro idx p gcs h hl
    match gcs with
    | [] => rfl
    | gc :: rest =>
      have hd : gc.flags.dir = false := h gc (List.mem_cons_self gc rest)
      have hrest := ih idx p rest (fun x hx => h x (List.mem_cons_of_mem _ hx))
        (Nat.le_of_succ_le_succ hl)
      rw [replayGo_cons_nondir f idx p gc rest hd]
      simp [hrest]

/-- Claim C9: during replay, the entry for a nested child directory is
fetched from the index by absolute path alone — the theorem's hypotheses
allow the stored validation triple to disagree with the parent's shallow
child record in every component — and the entry found this way is expanded
anyway and marked `used = true`, hence written by the next save. -/
theorem replay_child_lookup_skips_validation :
    ∀ (f : Nat) (idx : Index) (p : String) (c : CacheChild) (E : CacheEntry),
      c.flags.dir = true →
      indexLookup idx (joinPath p c.name) = some E →
      (E.mtime, E.dev, E.ino) ≠ (c.mtime, c.dev, c.ino) →
      (∀ gc ∈ E.children, gc.flags.dir = false) →
      E.children.length ≤ f + 1 →
      (replayGo (f + 2) idx p [c]).1
          = replayEvent c :: (E.children.map replayEvent ++ [Event.close])
      ∧ (replayGo (f + 2) idx p [c]).2 = indexMarkUsed idx (joinPath p c.name)
      ∧ indexLookup ((replayGo (f + 2) idx p [c]).2) (joinPath p c.name)
          = some { E with used := true }
      ∧ { E with used := true } ∈ savedEntries ((replayGo (f + 2) idx p [c]).2) := by
  intro f idx p c E hdir hE hne hflat hlen
  have hstep := replayGo_cons_dir (f + 1) idx p c [] E hdir hE
  have hflatr := replayGo_flat (f + 1) (indexMarkUsed idx (joinPath p c.name))
    (joinPath p c.name) E.children hflat hlen
  rw [hflatr] at hstep
  have hmk := indexLookup_markUsed_self idx (joinPath p c.name) E hE
  have hmem : { E with used := true } ∈ indexMarkUsed idx (joinPath p c.name) :=
    List.mem_of_find?_eq_some (by simpa [indexLookup] using hmk)
  refine ⟨?_, ?_, ?_, ?_⟩
  · rw [hstep]
    simp [replayGo]
  · rw [hstep]
    simp [replayGo]
  · rw [hstep]
    simpa [replayGo] using hmk
  · rw [hstep]
    simpa [replayGo] using (mem_savedEntries_iff _ _).mpr ⟨hmem, rfl⟩

/-- The cached child record of the C9 witness: a directory `d` whose parent
record carries triple (50, 1, 9). -/
def c9Child : CacheChild :=
  { name := "d", flags := { noFlags with dir := true }, size := 4096, asize := 100,
    ino := 9, dev := 1, mtime := 50, uid := 1, gid := 1, nlink := 0, mode := 493 }

/-- The index entry of the C9 witness: stored under `/p/d` with a validation
triple (51, 2, 10) that disagrees with the parent record in every
component. -/
def c9Entry : CacheEntry :=
  { path := "/p/d", mtime := 51, dev := 2, ino := 10, size := 4096, asize := 100,
    items := 1, used := false,
    children := [{ name := "g", flags := { noFlags with file := true }, size := 8,
                   asize := 8, ino := 11, dev := 2, mtime := 40, uid := 1, gid := 1,
                   nlink := 0, mode := 420 }] }

theorem replay_child_lookup_skips_validation_witness :
    (c9Entry.mtime, c9Entry.dev, c9Entry.ino) ≠ (c9Child.mtime, c9Child.dev, c9Child.ino)
    ∧ (replayGo 2 [c9Entry] "/p" [c9Child]).1
        = replayEvent c9Child :: (c9Entry.children.map replayEvent ++ [Event.close])
    ∧ indexLookup ((replayGo 2 [c9Entry] "/p" [c9Child]).2) (joinPath "/p" "d")
        = some { c9Entry with used := true }
    ∧ { c9Entry with used := true } ∈ savedEntries ((replayGo 2 [c9Entry] "/p" [c9Child]).2) := by
  have h := replay_child_lookup_skips_validation 0 [c9Entry] "/p" c9Child c9Entry
    (by decide) (by decide) (by decide) (by decide) (by decide)
  exact ⟨by decide, h.1, by simpa using h.2.2.1, h.2.2.2⟩

/-! ## A concrete end-to-end load

One small document exercising the whole load pipeline: header, metadata
object, one DirRecord with a file child.  The file child has no `dev` key and
inherits the enclosing directory's `dev`, and the entry is built flat with
`used = false`. -/

/-- A minimal cache document with one directory record. -/
def loadExampleDoc : List Nat :=
  strBytes "[1,2,\x7b\x7d,[\x7b\"name\":\"/a\",\"mtime\":9,\"ino\":7,\"dev\":5\x7d,\x7b\"name\":\"f\",\"asize\":10\x7d]]"

theorem load_builds_flat_entry :
    dir_cache_load 40 true (OpenRes.ok loadExampleDoc) []
      = (0, [{ path := "/a", mtime := 9, dev := 5, ino := 7, size := 0, asize := 0,
               items := 1, used := false,
               children := [{ name := "f", flags := { noFlags with file := true },
                              size := 0, asize := 10, ino := 0, dev := 5, mtime := 0,
                              uid := 0, gid := 0, nlink := 0, mode := 0 }] }]) := by
  decide
